import Mathlib

/-!
Shallow embedding of the IndieAuth endpoints of `indieauth/views.py` and the
persistent records of `indieauth/models.py`.  Times are seconds as `Nat`;
the cryptographic hashes (`_hash_token`, `_base64url_sha256`) are abstract
`String → String` parameters, since the comparisons in the views only ever
match a stored hash against a recomputed hash of the same primitive.
-/

namespace IndieAuth

/-- `AUTH_CODE_TTL = timedelta(minutes=10)`, in seconds. -/
def AUTH_CODE_TTL : Nat := 600

/-- `ACCESS_TOKEN_TTL = timedelta(days=30)`, in seconds. -/
def ACCESS_TOKEN_TTL : Nat := 2592000

/-- `CLIENT_CACHE_TTL = timedelta(hours=12)`, in seconds. -/
def CLIENT_CACHE_TTL : Nat := 43200

/-- Row of `IndieAuthAuthorizationCode` (models.py). -/
structure AuthCode where
  code_hash : String
  code_challenge : String
  code_challenge_method : String
  client_id : String
  redirect_uri : String
  me : String
  scope : String
  user : Nat
  expires_at : Nat
  used_at : Option Nat
deriving Repr, DecidableEq

/-- Row of `IndieAuthAccessToken` (models.py). -/
structure AccessToken where
  token_hash : String
  client_id : String
  me : String
  scope : String
  user : Nat
  created_at : Nat
  expires_at : Option Nat
  revoked_at : Option Nat
deriving Repr, DecidableEq

/-- The persistent store the token endpoint reads and writes. -/
structure Store where
  codes : List AuthCode
  tokens : List AccessToken
deriving Repr, DecidableEq

/-- The filter `code_hash=code_hash, used_at__isnull=True` used both to fetch
the candidate code and (via `save` on the fetched row) to consume it. -/
def unusedWith (code_hash : String) (c : AuthCode) : Bool :=
  decide (c.code_hash = code_hash ∧ c.used_at = none)

/-- `auth_code.used_at = timezone.now(); auth_code.save(...)`: sets `used_at`
on the row that `.filter(code_hash=..., used_at__isnull=True).first()` found,
i.e. on the first row matching that filter. -/
def markUsed (code_hash : String) (now : Nat) : List AuthCode → List AuthCode
  | [] => []
  | c :: rest =>
    if unusedWith code_hash c then { c with used_at := some now } :: rest
    else c :: markUsed code_hash now rest

/-- `objects.filter(token_hash=h, revoked_at__isnull=True).update(revoked_at=now)`. -/
def revokeTokens (token_hash : String) (now : Nat) (ts : List AccessToken) :
    List AccessToken :=
  ts.map fun t =>
    if t.token_hash = token_hash ∧ t.revoked_at = none then
      { t with revoked_at := some now }
    else t

/-- POST form fields consumed by the `token` view. -/
structure TokenRequest where
  method : String
  action : String
  token : String
  access_token : String
  grant_type : String
  code : String
  client_id : String
  redirect_uri : String
  code_verifier : String
deriving Repr, DecidableEq

/-- Responses of the `token` view. -/
inductive TokenResp where
  | badRequest : TokenResp
  | revoked : Bool → TokenResp
  | err : String → TokenResp
  | ok : (access_token token_type me scope : String) → Option Nat → TokenResp
deriving Repr, DecidableEq

/-- HTTP status of each `token` view response. -/
def TokenResp.status : TokenResp → Nat
  | .badRequest => 400
  | .revoked _ => 200
  | .err _ => 400
  | .ok _ _ _ _ _ => 200

/-- The `token` view (views.py lines 526-597).  `hash_token` embeds
`_hash_token`, `b64_sha256` embeds `_base64url_sha256`, `new_token` the value
drawn from `secrets.token_urlsafe(32)`, `now` the request's `timezone.now()`. -/
def token (hash_token b64_sha256 : String → String) (new_token : String)
    (now : Nat) (s : Store) (req : TokenRequest) : Store × TokenResp :=
  if req.method ≠ "POST" then (s, .badRequest)
  else if req.action = "revoke" then
    let token_value := if req.token ≠ "" then req.token else req.access_token
    if token_value = "" then (s, .revoked false)
    else
      ({ s with tokens := revokeTokens (hash_token token_value) now s.tokens },
       .revoked true)
  else if req.grant_type ≠ "" ∧ req.grant_type ≠ "authorization_code" then
    (s, .err "unsupported_grant_type")
  else if req.code = "" ∨ req.client_id = "" ∨ req.redirect_uri = "" ∨
      req.code_verifier = "" then
    (s, .err "invalid_request")
  else
    let code_hash := hash_token req.code
    match s.codes.find? (unusedWith code_hash) with
    | none => (s, .err "invalid_grant")
    | some auth_code =>
      if auth_code.expires_at ≤ now then (s, .err "invalid_grant")
      else if auth_code.client_id ≠ req.client_id ∨
          auth_code.redirect_uri ≠ req.redirect_uri then (s, .err "invalid_grant")
      else if auth_code.code_challenge_method ≠ "S256" then (s, .err "invalid_grant")
      else if b64_sha256 req.code_verifier ≠ auth_code.code_challenge then
        (s, .err "invalid_grant")
      else
        let expires_at := now + ACCESS_TOKEN_TTL
        let new_record : AccessToken :=
          { token_hash := hash_token new_token
            client_id := auth_code.client_id
            me := auth_code.me
            scope := auth_code.scope
            user := auth_code.user
            created_at := now
            expires_at := some expires_at
            revoked_at := none }
        ({ codes := markUsed code_hash now s.codes,
           tokens := s.tokens ++ [new_record] },
         .ok new_token "Bearer" auth_code.me auth_code.scope
           (some (expires_at - now)))

/-- JSON body of the introspection view, with `none` for absent keys. -/
structure IntrospectBody where
  active : Bool
  scope : Option String
  client_id : Option String
  me : Option String
  token_type : Option String
  iat : Option Nat
  exp : Option Nat
deriving Repr, DecidableEq

/-- The `{"active": false}` body. -/
def inactiveBody : IntrospectBody :=
  { active := false, scope := none, client_id := none, me := none,
    token_type := none, iat := none, exp := none }

/-- `token.expires_at and token.expires_at <= timezone.now()`. -/
def tokenExpired (t : AccessToken) (now : Nat) : Bool :=
  match t.expires_at with
  | some e => decide (e ≤ now)
  | none => false

/-- The active payload built at the end of `introspect`. -/
def activeBody (t : AccessToken) : IntrospectBody :=
  { active := true, scope := some t.scope, client_id := some t.client_id,
    me := some t.me, token_type := some "Bearer", iat := some t.created_at,
    exp := t.expires_at }

/-- The `introspect` view (views.py lines 600-636), after the token value has
been extracted from the POST field, query string or Bearer header; returns
the HTTP status together with the JSON body. -/
def introspect (hash_token : String → String) (now : Nat)
    (tokens : List AccessToken) (token_value : String) : Nat × IntrospectBody :=
  if token_value = "" then (400, inactiveBody)
  else
    match tokens.find? (fun t => decide (t.token_hash = hash_token token_value)) with
    | none => (200, inactiveBody)
    | some t =>
      if t.revoked_at ≠ none then (200, inactiveBody)
      else if tokenExpired t now then (200, inactiveBody)
      else (200, activeBody t)

/-- Result of Python's `urllib.parse.urlparse`, restricted to the components
the views read (`scheme`, `netloc`, `path`, `query`, `fragment`). -/
structure ParsedUrl where
  scheme : String
  netloc : String
  path : String
  query : String
  fragment : String
deriving Repr, DecidableEq

/-- Characters allowed in a URL scheme after the leading letter. -/
def isSchemeChar (c : Char) : Bool :=
  c.isAlphanum || c = '+' || c = '-' || c = '.'

/-- Split at the first occurrence of `c`, like Python `s.split(c, 1)`:
`none` when `c` does not occur. -/
def breakOnChar (c : Char) : List Char → List Char × Option (List Char)
  | [] => ([], none)
  | x :: xs =>
    if x = c then ([], some xs)
    else
      let (pre, rest) := breakOnChar c xs
      (x :: pre, rest)

/-- Python `str.lower`, character-wise. -/
def strLower (s : String) : String :=
  String.mk (s.data.map Char.toLower)

/-- Python `str.startswith`, via the underlying character lists. -/
def strStartsWith (s p : String) : Bool :=
  p.data.isPrefixOf s.data

/-- Python `str.rstrip("/")`. -/
def rstripSlash (s : String) : String :=
  String.mk ((s.data.reverse.dropWhile fun c => c = '/').reverse)

/-- `urllib.parse.urlparse`: scheme (lower-cased, demanding a leading letter
and scheme characters) before the first `:`, then `//netloc` up to the next
`/`, `?` or `#`, then fragment after the first `#`, then query after the
first `?`. -/
def urlparse (url : String) : ParsedUrl :=
  let (schemePart, afterColon) := breakOnChar ':' url.data
  let (scheme, rest) :=
    match afterColon with
    | some r =>
      if schemePart ≠ [] ∧ (schemePart.headD 'a').isAlpha ∧
          schemePart.all isSchemeChar then
        (schemePart.map Char.toLower, r)
      else ([], url.data)
    | none => ([], url.data)
  let (netloc, rest2) :=
    match rest with
    | '/' :: '/' :: r =>
      (r.takeWhile fun c => c ≠ '/' ∧ c ≠ '?' ∧ c ≠ '#',
       r.dropWhile fun c => c ≠ '/' ∧ c ≠ '?' ∧ c ≠ '#')
    | _ => ([], rest)
  let (rest3, fragment) := breakOnChar '#' rest2
  let (path, query) := breakOnChar '?' rest3
  { scheme := String.mk scheme, netloc := String.mk netloc,
    path := String.mk path, query := String.mk (query.getD []),
    fragment := String.mk (fragment.getD []) }

/-- Row of `IndieAuthClient` (models.py). -/
structure ClientRec where
  client_id : String
  name : String
  logo_url : String
  redirect_uris : List String
  last_fetched_at : Option Nat
  fetch_error : String
deriving Repr, DecidableEq

/-- Outcome of `_fetch_client_metadata`: either the parsed metadata or one of
the caught failures (`HTTPError`, `URLError`, `TimeoutError`, `ValueError`). -/
inductive FetchResult where
  | ok : (redirect_uris : List String) → (client_name logo_url : String) → FetchResult
  | fail : String → FetchResult
deriving Repr, DecidableEq

/-- The record produced by `get_or_create` for a previously unseen client. -/
def freshClient (client_id : String) : ClientRec :=
  { client_id := client_id, name := "", logo_url := "", redirect_uris := [],
    last_fetched_at := none, fetch_error := "" }

/-- `_get_or_fetch_client` (views.py lines 285-316); `existing` is the stored
row if one exists, `fetch` the outcome `_fetch_client_metadata` would have. -/
def get_or_fetch_client (now : Nat) (fetch : FetchResult)
    (existing : Option ClientRec) (client_id : String) : Option ClientRec :=
  if client_id = "" then none
  else
    let parsed := urlparse client_id
    if (parsed.scheme ≠ "http" ∧ parsed.scheme ≠ "https") ∨ parsed.netloc = "" then
      none
    else if parsed.fragment ≠ "" then none
    else
      let client := existing.getD (freshClient client_id)
      let refresh_needed : Bool :=
        match client.last_fetched_at with
        | none => true
        | some lf => decide (CLIENT_CACHE_TTL < now - lf)
      if client.redirect_uris ≠ [] ∧ client.name ≠ "" ∧ refresh_needed = false then
        some client
      else if client.redirect_uris ≠ [] ∧ client.name ≠ "" ∧
          client.last_fetched_at = none then
        some { client with last_fetched_at := some now }
      else if refresh_needed = true ∨ client.redirect_uris = [] then
        match fetch with
        | .ok uris cname clogo =>
          some { client with
            redirect_uris := uris,
            name := if cname ≠ "" then cname else client.name,
            logo_url := if clogo ≠ "" then clogo else client.logo_url,
            fetch_error := "",
            last_fetched_at := some now }
        | .fail msg =>
          some { client with fetch_error := msg, last_fetched_at := some now }
      else some client

/-- The client gate of `_authorize_get` (views.py lines 383-385): the request
is rejected as `Invalid client_id` exactly when `_get_or_fetch_client`
returns no client. -/
def authorize_client_gate (now : Nat) (fetch : FetchResult)
    (existing : Option ClientRec) (client_id : String) : Bool :=
  (get_or_fetch_client now fetch existing client_id).isSome

/-- `_redirect_uri_allowed` (views.py lines 319-341). -/
def redirect_uri_allowed (client_id redirect_uri : String)
    (client : Option ClientRec) : Bool :=
  if redirect_uri = "" then false
  else
    let parsed := urlparse redirect_uri
    if (parsed.scheme ≠ "http" ∧ parsed.scheme ≠ "https") ∨ parsed.netloc = "" then
      false
    else if parsed.fragment ≠ "" then false
    else
      let fallback :=
        let client_parsed := urlparse client_id
        if client_parsed.scheme ≠ parsed.scheme ∨
            client_parsed.netloc ≠ parsed.netloc then false
        else if client_parsed.path ≠ "" then
          if ¬ strStartsWith parsed.path client_parsed.path then false
          else if parsed.path ≠ client_parsed.path then
            if ¬ strStartsWith parsed.path
                (rstripSlash client_parsed.path ++ "/") then false
            else true
          else true
        else true
      match client with
      | some c =>
        if c.redirect_uris ≠ [] then c.redirect_uris.contains redirect_uri
        else fallback
      | none => fallback

/-- Classification flags of a resolved address, as computed by Python's
`ipaddress.ip_address(...)`. -/
structure IPInfo where
  is_private : Bool
  is_loopback : Bool
  is_link_local : Bool
  is_reserved : Bool
  is_multicast : Bool
deriving Repr, DecidableEq

/-- Whether `_is_public_host` rejects this resolved address. -/
def ip_disallowed (ip : IPInfo) : Bool :=
  ip.is_private || ip.is_loopback || ip.is_link_local || ip.is_reserved ||
    ip.is_multicast

/-- `_is_localhost` (views.py lines 103-106). -/
def is_localhost : Option String → Bool
  | none => false
  | some h =>
    if h = "" then false
    else decide (strLower h = "localhost" ∨ strLower h = "127.0.0.1" ∨
      strLower h = "::1")

/-- `_is_public_host` (views.py lines 119-140).  `resolve` embeds
`_resolve_host_ips`: `none` models a raised `socket.gaierror`. -/
def is_public_host (resolve : String → Option (List IPInfo)) :
    Option String → Bool
  | none => false
  | some h =>
    if h = "" then false
    else if is_localhost (some h) then false
    else
      match resolve h with
      | none => false
      | some addrs =>
        if addrs.isEmpty then false
        else addrs.all fun ip => ! ip_disallowed ip

/-- The host gating of `_fetch_client_metadata` (views.py lines 210-226): the
fetch proceeds only if the client_id host passes `_is_public_host` and every
redirect hop's target host passes it again (`_RedirectGuard`).  The `debug`
flag records `settings.DEBUG`; the source's discovery guard never consults
it. -/
def fetch_hosts_allowed (resolve : String → Option (List IPInfo))
    (debug : Bool) (client_host : Option String)
    (redirect_hosts : List (Option String)) : Bool :=
  is_public_host resolve client_host &&
    redirect_hosts.all (is_public_host resolve)

/-- Row of `IndieAuthConsent` (models.py). -/
structure Consent where
  user : Nat
  client_id : String
  scope : String
  created_at : Nat
  last_used_at : Option Nat
deriving Repr, DecidableEq

/-- Split at every character satisfying `p`, keeping empty pieces, like
`str.split` with an explicit separator set. -/
def splitOnPred (p : Char → Bool) : List Char → List (List Char)
  | [] => [[]]
  | c :: cs =>
    let r := splitOnPred p cs
    if p c then [] :: r
    else
      match r with
      | [] => [[c]]
      | w :: ws => (c :: w) :: ws

/-- `_normalize_scopes` (views.py lines 170-173): whitespace-split the scope
string, keeping only non-empty items. -/
def normalize_scopes (scope_value : String) : List String :=
  if scope_value = "" then []
  else ((splitOnPred (fun c => c.isWhitespace) scope_value.data).map
    String.mk).filter fun item => item ≠ ""

/-- `" ".join(scopes)`. -/
def scope_join (scopes : List String) : String :=
  String.intercalate " " scopes

/-- The consent lookup filter `(user, client_id, scope=scope_value)`. -/
def consentPred (user : Nat) (client_id scope_value : String)
    (c : Consent) : Bool :=
  decide (c.user = user ∧ c.client_id = client_id ∧ c.scope = scope_value)

/-- Update the first element matching `p`, as `save()` on the row returned
by `.filter(...).first()`. -/
def updateFirst {α : Type} (p : α → Bool) (f : α → α) : List α → List α
  | [] => []
  | x :: rest => if p x then f x :: rest else x :: updateFirst p f rest

/-- What the authenticated, validated `_authorize_get` does next: issue a
code right away or render the consent prompt. -/
inductive AuthorizeStep where
  | issue : (user : Nat) →
      (client_id redirect_uri me scope state code_challenge
        code_challenge_method : String) → AuthorizeStep
  | prompt : AuthorizeStep
deriving Repr, DecidableEq

/-- The consent-check tail of `_authorize_get` (views.py lines 401-436), run
once the request has passed validation and the user is authenticated. -/
def authorize_get_decision (now : Nat) (consents : List Consent) (user : Nat)
    (client_id redirect_uri me scope state code_challenge
      code_challenge_method prompt : String) :
    List Consent × AuthorizeStep :=
  let scope_value := scope_join (normalize_scopes scope)
  if prompt ≠ "consent" then
    match consents.find? (consentPred user client_id scope_value) with
    | some _ =>
      (updateFirst (consentPred user client_id scope_value)
        (fun c => { c with last_used_at := some now }) consents,
       .issue user client_id redirect_uri me scope_value state code_challenge
         code_challenge_method)
    | none => (consents, .prompt)
  else (consents, .prompt)

/-! Helper lemmas about code consumption. -/

lemma unusedWith_eq_true {h : String} {c : AuthCode} :
    unusedWith h c = true ↔ c.code_hash = h ∧ c.used_at = none := by
  simp [unusedWith]

lemma find?_unusedWith_some {h : String} {l : List AuthCode} {ac : AuthCode}
    (hf : l.find? (unusedWith h) = some ac) :
    ac.code_hash = h ∧ ac.used_at = none :=
  unusedWith_eq_true.mp (List.find?_some hf)

lemma mem_markUsed_of_find? {h : String} (now : Nat) {l : List AuthCode}
    {ac : AuthCode} (hf : l.find? (unusedWith h) = some ac) :
    { ac with used_at := some now } ∈ markUsed h now l := by
  induction l with
  | nil => simp at hf
  | cons c rest ih =>
    by_cases hc : unusedWith h c = true
    · rw [List.find?_cons_of_pos _ hc] at hf
      cases hf
      simp [markUsed, hc]
    · rw [List.find?_cons_of_neg _ hc] at hf
      simp only [markUsed, if_neg hc]
      exact List.mem_cons_of_mem _ (ih hf)

lemma find?_markUsed_none (h : String) (now : Nat) (l : List AuthCode)
    (hp : l.Pairwise fun a b => a.code_hash ≠ b.code_hash) :
    (markUsed h now l).find? (unusedWith h) = none := by
  induction l with
  | nil => simp [markUsed]
  | cons c rest ih =>
    rcases List.pairwise_cons.mp hp with ⟨hhead, hrest⟩
    by_cases hc : unusedWith h c = true
    · rcases unusedWith_eq_true.mp hc with ⟨hch, _⟩
      simp only [markUsed, if_pos hc]
      rw [List.find?_cons_of_neg, List.find?_eq_none]
      · intro b hb
        have : b.code_hash ≠ h := hch ▸ (hhead b hb).symm
        simp [unusedWith_eq_true, this]
      · simp [unusedWith_eq_true]
    · simp only [markUsed, if_neg hc]
      rw [List.find?_cons_of_neg _ hc]
      exact ih hrest

/-- C5 counterexample: with an empty `grant_type` (which differs from
`authorization_code`) and a missing `code`, the endpoint answers
`invalid_request`, not `unsupported_grant_type`: the unsupported-grant check
only fires for a non-empty grant type. -/
theorem token_empty_grant_type_not_unsupported :
    ("" : String) ≠ "authorization_code" ∧
    token (fun x => x) (fun x => x) "t" 0 ⟨[], []⟩
        ⟨"POST", "", "", "", "", "", "", "", ""⟩ =
      (⟨[], []⟩, TokenResp.err "invalid_request") :=
  ⟨by decide, rfl⟩

/-- C5 (amended): for a non-revoke POST, any non-empty `grant_type` other
than `authorization_code` fails with `unsupported_grant_type`; when
`grant_type` is `authorization_code` or empty, a missing `code`, `client_id`,
`redirect_uri` or `code_verifier` fails with `invalid_request`. -/
theorem token_grant_type_and_missing_param_errors
    (H B : String → String) (ntv : String) (now : Nat) (s : Store)
    (req : TokenRequest) (hm : req.method = "POST") (ha : req.action ≠ "revoke") :
    (req.grant_type ≠ "" → req.grant_type ≠ "authorization_code" →
      token H B ntv now s req = (s, .err "unsupported_grant_type")) ∧
    ((req.grant_type = "" ∨ req.grant_type = "authorization_code") →
      (req.code = "" ∨ req.client_id = "" ∨ req.redirect_uri = "" ∨
        req.code_verifier = "") →
      token H B ntv now s req = (s, .err "invalid_request")) := by
  constructor
  · intro h1 h2
    unfold token
    rw [if_neg (by simp [hm]), if_neg ha, if_pos ⟨h1, h2⟩]
  · intro hg hmiss
    unfold token
    have hng : ¬(req.grant_type ≠ "" ∧ req.grant_type ≠ "authorization_code") := by
      rcases hg with h | h <;> simp [h]
    rw [if_neg (by simp [hm]), if_neg ha, if_neg hng, if_pos hmiss]

/-- C5 witness: the amended theorem evaluated at a request with
`grant_type=client_credentials`. -/
theorem token_grant_type_errors_witness :
    token (fun x => x) (fun x => x) "t" 0 ⟨[], []⟩
        ⟨"POST", "", "", "", "client_credentials", "", "", "", ""⟩ =
      (⟨[], []⟩, TokenResp.err "unsupported_grant_type") :=
  (token_grant_type_and_missing_param_errors (fun x => x) (fun x => x) "t" 0
      ⟨[], []⟩ ⟨"POST", "", "", "", "client_credentials", "", "", "", ""⟩
      rfl (by decide)).1 (by decide) (by decide)

/-- C7: an authorization code whose expiry has passed is refused with
`invalid_grant` even when the verifier, client_id and redirect_uri all
match the stored code. -/
theorem token_expired_code_invalid_grant
    (H B : String → String) (ntv : String) (now : Nat) (s : Store)
    (code cid ruri verifier : String) (ac : AuthCode)
    (hcode : code ≠ "") (hcid : cid ≠ "") (hruri : ruri ≠ "") (hv : verifier ≠ "")
    (hfind : s.codes.find? (unusedWith (H code)) = some ac)
    (hch : ac.code_challenge = B verifier)
    (hmeth : ac.code_challenge_method = "S256")
    (hac_cid : ac.client_id = cid) (hac_ruri : ac.redirect_uri = ruri)
    (hexp : ac.expires_at < now) :
    token H B ntv now s ⟨"POST", "", "", "", "authorization_code",
        code, cid, ruri, verifier⟩ =
      (s, TokenResp.err "invalid_grant") := by
  unfold token
  rw [if_neg (by simp), if_neg (by simp), if_neg (by simp),
    if_neg (by simp [hcode, hcid, hruri, hv])]
  simp only [hfind]
  rw [if_pos (Nat.le_of_lt hexp)]

/-- C7 witness: a concrete store holding one code that expired at time 5,
exchanged at time 10 with the matching verifier. -/
theorem token_expired_code_invalid_grant_witness :
    token (fun x => x) (fun _ => "ch") "tok" 10
        ⟨[⟨"c", "ch", "S256", "https://cid", "https://ru", "https://me",
            "create", 1, 5, none⟩], []⟩
        ⟨"POST", "", "", "", "authorization_code", "c", "https://cid",
          "https://ru", "v"⟩ =
      (⟨[⟨"c", "ch", "S256", "https://cid", "https://ru", "https://me",
          "create", 1, 5, none⟩], []⟩, TokenResp.err "invalid_grant") :=
  token_expired_code_invalid_grant (fun x => x) (fun _ => "ch") "tok" 10
    ⟨[⟨"c", "ch", "S256", "https://cid", "https://ru", "https://me",
        "create", 1, 5, none⟩], []⟩
    "c" "https://cid" "https://ru" "v"
    ⟨"c", "ch", "S256", "https://cid", "https://ru", "https://me",
      "create", 1, 5, none⟩
    (by decide) (by decide) (by decide) (by decide) (by decide)
    (by decide) (by decide) (by decide) (by decide) (by decide)

/-- C10: whenever the token endpoint answers with any OAuth error
(`invalid_request`, `unsupported_grant_type` or `invalid_grant`, PKCE
mismatch included), the store is returned unchanged: no code is consumed and
no access token is created, so the code stays exchangeable later. -/
theorem token_error_leaves_store_unchanged
    (H B : String → String) (ntv : String) (now : Nat) (s s1 : Store)
    (req : TokenRequest) (e : String)
    (h : token H B ntv now s req = (s1, TokenResp.err e)) : s1 = s := by
  unfold token at h
  split at h
  · simp_all
  · split at h
    · split at h <;> dsimp only at h <;> split at h <;> simp_all
    · split at h
      · simp_all
      · split at h
        · simp_all
        · dsimp only at h
          split at h
          · simp_all
          · split at h
            · simp_all
            · split at h
              · simp_all
              · split at h
                · simp_all
                · split at h <;> simp_all

/-- C10 witness: the theorem applied to a concrete `invalid_request` reply. -/
theorem token_error_leaves_store_unchanged_witness :
    (⟨[], []⟩ : Store) = ⟨[], []⟩ :=
  token_error_leaves_store_unchanged (fun x => x) (fun x => x) "t" 0
    ⟨[], []⟩ ⟨[], []⟩ ⟨"POST", "", "", "", "authorization_code", "", "", "", ""⟩
    "invalid_request" rfl

lemma introspect_eq_of_find?_none (H : String → String) (now : Nat)
    (tokens : List AccessToken) (tv : String) (htv : tv ≠ "")
    (hf : tokens.find? (fun t => decide (t.token_hash = H tv)) = none) :
    introspect H now tokens tv = (200, inactiveBody) := by
  unfold introspect
  rw [if_neg htv, hf]

lemma introspect_eq_of_find?_some (H : String → String) (now : Nat)
    (tokens : List AccessToken) (tv : String) (t : AccessToken) (htv : tv ≠ "")
    (hf : tokens.find? (fun t => decide (t.token_hash = H tv)) = some t) :
    introspect H now tokens tv =
      if t.revoked_at ≠ none then (200, inactiveBody)
      else if tokenExpired t now then (200, inactiveBody)
      else (200, activeBody t) := by
  unfold introspect
  rw [if_neg htv, hf]

/-- C6: every introspection request that carries a token value gets HTTP 200;
an unknown, revoked or expired token yields the identical `(200, inactive)`
answer in all three cases, and `active=true` (with scope, client_id, me,
issued-at, and the expiry when stored) occurs only for a stored token that
is neither revoked nor expired. -/
theorem introspect_always_200_and_uniform_inactive
    (H : String → String) (now : Nat) (tokens : List AccessToken)
    (tv : String) (htv : tv ≠ "") :
    (introspect H now tokens tv).1 = 200 ∧
    (tokens.find? (fun t => decide (t.token_hash = H tv)) = none →
      introspect H now tokens tv = (200, inactiveBody)) ∧
    (∀ t, tokens.find? (fun t => decide (t.token_hash = H tv)) = some t →
      t.revoked_at ≠ none → introspect H now tokens tv = (200, inactiveBody)) ∧
    (∀ t, tokens.find? (fun t => decide (t.token_hash = H tv)) = some t →
      tokenExpired t now = true → introspect H now tokens tv = (200, inactiveBody)) ∧
    (∀ t, tokens.find? (fun t => decide (t.token_hash = H tv)) = some t →
      t.revoked_at = none → tokenExpired t now = false →
      introspect H now tokens tv = (200, activeBody t)) ∧
    (∀ st body, introspect H now tokens tv = (st, body) → body.active = true →
      ∃ t, tokens.find? (fun t => decide (t.token_hash = H tv)) = some t ∧
        t.revoked_at = none ∧ tokenExpired t now = false ∧
        body = activeBody t ∧ st = 200) := by
  refine ⟨?_, ?_, ?_, ?_, ?_, ?_⟩
  · rcases hfind : tokens.find? (fun t => decide (t.token_hash = H tv)) with _ | t
    · rw [introspect_eq_of_find?_none H now tokens tv htv hfind]
    · rw [introspect_eq_of_find?_some H now tokens tv t htv hfind]
      split
      · rfl
      · split <;> rfl
  · intro hf
    exact introspect_eq_of_find?_none H now tokens tv htv hf
  · intro t hf hr
    rw [introspect_eq_of_find?_some H now tokens tv t htv hf, if_pos hr]
  · intro t hf he
    rw [introspect_eq_of_find?_some H now tokens tv t htv hf]
    split <;> simp [he]
  · intro t hf hr he
    rw [introspect_eq_of_find?_some H now tokens tv t htv hf,
      if_neg (by simp [hr]), if_neg (by simp [he])]
  · intro st body hi hb
    rcases hfind : tokens.find? (fun t => decide (t.token_hash = H tv)) with _ | t
    · rw [introspect_eq_of_find?_none H now tokens tv htv hfind] at hi
      cases hi
      simp [inactiveBody] at hb
    · rw [introspect_eq_of_find?_some H now tokens tv t htv hfind] at hi
      by_cases hr : t.revoked_at = none
      · rw [if_neg (by simp [hr])] at hi
        cases he : tokenExpired t now
        · rw [if_neg (by simp [he])] at hi
          cases hi
          exact ⟨t, hfind, hr, he, rfl, rfl⟩
        · rw [if_pos (by simp [he])] at hi
          cases hi
          simp [inactiveBody] at hb
      · rw [if_pos hr] at hi
        cases hi
        simp [inactiveBody] at hb

/-- C6 witness: the theorem evaluated at a one-token store where the token is
live at time 0. -/
theorem introspect_always_200_witness :
    (introspect (fun x => x) 0
        [⟨"h1", "https://cid", "https://me", "read", 1, 0, some 100, none⟩]
        "h1").1 = 200 :=
  (introspect_always_200_and_uniform_inactive (fun x => x) 0
      [⟨"h1", "https://cid", "https://me", "read", 1, 0, some 100, none⟩]
      "h1" (by decide)).1

lemma revokeTokens_mem (h : String) (now : Nat) (ts : List AccessToken)
    (t : AccessToken) (ht : t ∈ ts) :
    t ∈ revokeTokens h now ts ∨
      (t.revoked_at = none ∧
        { t with revoked_at := some now } ∈ revokeTokens h now ts) := by
  by_cases hc : t.token_hash = h ∧ t.revoked_at = none
  · refine Or.inr ⟨hc.2, ?_⟩
    have := List.mem_map_of_mem (fun t : AccessToken =>
      if t.token_hash = h ∧ t.revoked_at = none then
        { t with revoked_at := some now } else t) ht
    simpa [revokeTokens, if_pos hc] using this
  · refine Or.inl ?_
    have := List.mem_map_of_mem (fun t : AccessToken =>
      if t.token_hash = h ∧ t.revoked_at = none then
        { t with revoked_at := some now } else t) ht
    simpa [revokeTokens, if_neg hc] using this

/-- C9: the token endpoint never deletes an access token and its only
mutation of an existing token is setting a null `revoked_at`: every stored
token survives any request either unchanged (in particular an
already-revoked token keeps its original revocation timestamp) or, when its
`revoked_at` was null, with `revoked_at` set to the request time.  The other
views (`introspect`, `userinfo`) only read the token table. -/
theorem access_tokens_append_only
    (H B : String → String) (ntv : String) (now : Nat) (s : Store)
    (req : TokenRequest) :
    s.tokens.length ≤ (token H B ntv now s req).1.tokens.length ∧
    ∀ t ∈ s.tokens,
      t ∈ (token H B ntv now s req).1.tokens ∨
        (t.revoked_at = none ∧
          { t with revoked_at := some now } ∈ (token H B ntv now s req).1.tokens) := by
  unfold token
  split
  · exact ⟨Nat.le_refl _, fun t ht => Or.inl ht⟩
  · split
    · dsimp only
      split
      · exact ⟨by simp [revokeTokens], fun t ht => revokeTokens_mem _ _ _ _ ht⟩
      · split
        · exact ⟨Nat.le_refl _, fun t ht => Or.inl ht⟩
        · exact ⟨by simp [revokeTokens], fun t ht => revokeTokens_mem _ _ _ _ ht⟩
    · split
      · exact ⟨Nat.le_refl _, fun t ht => Or.inl ht⟩
      · split
        · exact ⟨Nat.le_refl _, fun t ht => Or.inl ht⟩
        · dsimp only
          split
          · exact ⟨Nat.le_refl _, fun t ht => Or.inl ht⟩
          · split
            · exact ⟨Nat.le_refl _, fun t ht => Or.inl ht⟩
            · split
              · exact ⟨Nat.le_refl _, fun t ht => Or.inl ht⟩
              · split
                · exact ⟨Nat.le_refl _, fun t ht => Or.inl ht⟩
                · split
                  · exact ⟨Nat.le_refl _, fun t ht => Or.inl ht⟩
                  · exact ⟨by simp, fun t ht =>
                      Or.inl (List.mem_append_left _ ht)⟩

/-- C9 witness: a store holding one revoked token, hit by a revoke request:
the token survives with its original revocation timestamp. -/
theorem access_tokens_append_only_witness :
    (⟨"h1", "https://cid", "https://me", "read", 1, 0, some 100, some 7⟩ :
        AccessToken) ∈
      (token (fun x => x) (fun x => x) "t" 50
        ⟨[], [⟨"h1", "https://cid", "https://me", "read", 1, 0, some 100, some 7⟩]⟩
        ⟨"POST", "revoke", "h1", "", "", "", "", "", ""⟩).1.tokens := by
  rcases (access_tokens_append_only (fun x => x) (fun x => x) "t" 50
      ⟨[], [⟨"h1", "https://cid", "https://me", "read", 1, 0, some 100, some 7⟩]⟩
      ⟨"POST", "revoke", "h1", "", "", "", "", "", ""⟩).2
      ⟨"h1", "https://cid", "https://me", "read", 1, 0, some 100, some 7⟩
      (by decide) with h | h
  · exact h
  · exact absurd h.1 (by decide)

/-- C1: a code stored with challenge `B verifier` and method S256 is
exchangeable exactly once: before expiry, a POST with that code, the
matching client_id and redirect_uri and that verifier yields the 200 token
response; the consumed code's `used_at` goes from `none` to `some now`; and
any well-formed second exchange of the same code, with any verifier, on the
resulting store answers `invalid_grant` and leaves the store unchanged. -/
theorem code_exchange_succeeds_once
    (H B : String → String) (ntv : String) (now : Nat) (s : Store)
    (code cid ruri verifier : String) (ac : AuthCode)
    (hcode : code ≠ "") (hcid : cid ≠ "") (hruri : ruri ≠ "") (hv : verifier ≠ "")
    (hfind : s.codes.find? (unusedWith (H code)) = some ac)
    (hpw : s.codes.Pairwise fun a b => a.code_hash ≠ b.code_hash)
    (hch : ac.code_challenge = B verifier)
    (hmeth : ac.code_challenge_method = "S256")
    (hac_cid : ac.client_id = cid) (hac_ruri : ac.redirect_uri = ruri)
    (hexp : now < ac.expires_at) :
    ac.used_at = none ∧
    (token H B ntv now s ⟨"POST", "", "", "", "authorization_code",
        code, cid, ruri, verifier⟩).2 =
      TokenResp.ok ntv "Bearer" ac.me ac.scope (some ACCESS_TOKEN_TTL) ∧
    (token H B ntv now s ⟨"POST", "", "", "", "authorization_code",
        code, cid, ruri, verifier⟩).2.status = 200 ∧
    { ac with used_at := some now } ∈
      (token H B ntv now s ⟨"POST", "", "", "", "authorization_code",
        code, cid, ruri, verifier⟩).1.codes ∧
    ∀ ntv2 now2 v2 cid2 ruri2, cid2 ≠ "" → ruri2 ≠ "" → v2 ≠ "" →
      token H B ntv2 now2
          (token H B ntv now s ⟨"POST", "", "", "", "authorization_code",
            code, cid, ruri, verifier⟩).1
          ⟨"POST", "", "", "", "authorization_code", code, cid2, ruri2, v2⟩ =
        ((token H B ntv now s ⟨"POST", "", "", "", "authorization_code",
          code, cid, ruri, verifier⟩).1, TokenResp.err "invalid_grant") := by
  have hcodes : (token H B ntv now s ⟨"POST", "", "", "", "authorization_code",
      code, cid, ruri, verifier⟩).1.codes = markUsed (H code) now s.codes := by
    simp [token, hfind, hcode, hcid, hruri, hv, hmeth, hac_cid, hac_ruri, hch,
      Nat.not_le.mpr hexp]
  refine ⟨(find?_unusedWith_some hfind).2, ?_, ?_, ?_, ?_⟩
  · simp [token, hfind, hcode, hcid, hruri, hv, hmeth, hac_cid, hac_ruri, hch,
      Nat.not_le.mpr hexp, ACCESS_TOKEN_TTL]
  · simp [token, hfind, hcode, hcid, hruri, hv, hmeth, hac_cid, hac_ruri, hch,
      Nat.not_le.mpr hexp, TokenResp.status]
  · rw [hcodes]
    exact mem_markUsed_of_find? now hfind
  · intro ntv2 now2 v2 cid2 ruri2 h1 h2 h3
    generalize hS : (token H B ntv now s ⟨"POST", "", "", "", "authorization_code",
        code, cid, ruri, verifier⟩).1 = S1
    have hS1codes : S1.codes = markUsed (H code) now s.codes := by
      rw [← hS]
      exact hcodes
    unfold token
    rw [if_neg (by simp), if_neg (by simp), if_neg (by simp),
      if_neg (by simp [hcode, h1, h2, h3])]
    dsimp only
    rw [hS1codes, find?_markUsed_none _ _ _ hpw]

/-- C1 witness: a concrete one-code store, exchanged at time 0 with the
matching verifier, then exchanged again (with a different verifier). -/
theorem code_exchange_succeeds_once_witness :
    (token (fun x => x) (fun _ => "ch") "tok" 0
        ⟨[⟨"c", "ch", "S256", "https://cid", "https://ru", "https://me",
            "create", 1, 600, none⟩], []⟩
        ⟨"POST", "", "", "", "authorization_code", "c", "https://cid",
          "https://ru", "v"⟩).2 =
      TokenResp.ok "tok" "Bearer" "https://me" "create" (some ACCESS_TOKEN_TTL) ∧
    token (fun x => x) (fun _ => "ch") "tok2" 1
        (token (fun x => x) (fun _ => "ch") "tok" 0
          ⟨[⟨"c", "ch", "S256", "https://cid", "https://ru", "https://me",
              "create", 1, 600, none⟩], []⟩
          ⟨"POST", "", "", "", "authorization_code", "c", "https://cid",
            "https://ru", "v"⟩).1
        ⟨"POST", "", "", "", "authorization_code", "c", "https://cid",
          "https://ru", "v2"⟩ =
      ((token (fun x => x) (fun _ => "ch") "tok" 0
          ⟨[⟨"c", "ch", "S256", "https://cid", "https://ru", "https://me",
              "create", 1, 600, none⟩], []⟩
          ⟨"POST", "", "", "", "authorization_code", "c", "https://cid",
            "https://ru", "v"⟩).1, TokenResp.err "invalid_grant") := by
  have h := code_exchange_succeeds_once (fun x => x) (fun _ => "ch") "tok" 0
    ⟨[⟨"c", "ch", "S256", "https://cid", "https://ru", "https://me",
        "create", 1, 600, none⟩], []⟩
    "c" "https://cid" "https://ru" "v"
    ⟨"c", "ch", "S256", "https://cid", "https://ru", "https://me",
      "create", 1, 600, none⟩
    (by decide) (by decide) (by decide) (by decide) (by decide)
    (by decide) (by decide) (by decide) (by decide) (by decide) (by decide)
  exact ⟨h.2.1, h.2.2.2.2 "tok2" 1 "v2" "https://cid" "https://ru"
    (by decide) (by decide) (by decide)⟩

/-- C3: with an empty declared redirect-URI list and a client_id with a
non-empty path, an accepted redirect_uri always has client_id's scheme and
host and a path equal to client_id's path or extending it past a `/`
boundary; with a non-empty declared list only an exact string match is
accepted; and against `https://client.example/app`, both
`https://client.example/app` and `https://client.example/app/sub` validate
while `https://client.example/app-evil` never does. -/
theorem redirect_uri_allowed_characterization
    (client_id ruri : String) (c : ClientRec) :
    (c.redirect_uris = [] → (urlparse client_id).path ≠ "" →
      redirect_uri_allowed client_id ruri (some c) = true →
      (urlparse ruri).scheme = (urlparse client_id).scheme ∧
      (urlparse ruri).netloc = (urlparse client_id).netloc ∧
      ((urlparse ruri).path = (urlparse client_id).path ∨
        strStartsWith (urlparse ruri).path
          (rstripSlash (urlparse client_id).path ++ "/") = true)) ∧
    (c.redirect_uris ≠ [] →
      redirect_uri_allowed client_id ruri (some c) = true →
      ruri ∈ c.redirect_uris) ∧
    (c.redirect_uris = [] →
      redirect_uri_allowed "https://client.example/app"
        "https://client.example/app" (some c) = true ∧
      redirect_uri_allowed "https://client.example/app"
        "https://client.example/app/sub" (some c) = true ∧
      redirect_uri_allowed "https://client.example/app"
        "https://client.example/app-evil" (some c) = false) := by
  refine ⟨?_, ?_, ?_⟩
  · intro he hp hallow
    simp only [redirect_uri_allowed, he] at hallow
    repeat' split at hallow
    all_goals simp_all
  · intro hne hallow
    simp only [redirect_uri_allowed] at hallow
    repeat' split at hallow
    all_goals simp_all
  · intro he
    refine ⟨?_, ?_, ?_⟩ <;> (simp only [redirect_uri_allowed, he]; decide)

/-- C3 witness: the characterization applied to a client record with an
empty declared list, at the claim's concrete URLs. -/
theorem redirect_uri_allowed_characterization_witness :
    redirect_uri_allowed "https://client.example/app"
      "https://client.example/app/sub"
      (some (freshClient "https://client.example/app")) = true ∧
    redirect_uri_allowed "https://client.example/app"
      "https://client.example/app-evil"
      (some (freshClient "https://client.example/app")) = false := by
  have h := (redirect_uri_allowed_characterization "https://client.example/app"
    "https://client.example/app/sub"
    (freshClient "https://client.example/app")).2.2 rfl
  exact ⟨h.2.1, h.2.2⟩

/-- C4 counterexample: a discovery failure for a client with no prior data
does not make the authorize request fail with an invalid-client error: the
freshly created record (empty redirect URIs, error recorded) is returned and
the `if not client` gate passes. -/
theorem fetch_failure_no_prior_data_not_invalid :
    get_or_fetch_client 0 (.fail "boom") none "https://app.example/" =
      some { client_id := "https://app.example/", name := "", logo_url := "",
             redirect_uris := [], last_fetched_at := some 0,
             fetch_error := "boom" } ∧
    authorize_client_gate 0 (.fail "boom") none "https://app.example/" = true := by
  constructor <;> decide

/-- C4 (amended): on fetch failure the error is recorded on the Client
record without raising; previously cached redirect URIs are preserved on
the returned record; with no prior data the record still comes back (empty
redirect URIs, error recorded) and the authorize client gate passes; the
invalid-client error occurs only for an empty or malformed client_id. -/
theorem client_fetch_failure_stale_or_fresh
    (now : Nat) (msg : String) (existing : ClientRec) (client_id : String)
    (hid : client_id ≠ "")
    (hscheme : (urlparse client_id).scheme = "http" ∨
      (urlparse client_id).scheme = "https")
    (hnet : (urlparse client_id).netloc ≠ "")
    (hfrag : (urlparse client_id).fragment = "") :
    (∃ c, get_or_fetch_client now (.fail msg) (some existing) client_id =
        some c ∧
      c.redirect_uris = existing.redirect_uris ∧
      (c.fetch_error = existing.fetch_error ∨ c.fetch_error = msg)) ∧
    get_or_fetch_client now (.fail msg) none client_id =
      some { client_id := client_id, name := "", logo_url := "",
             redirect_uris := [], last_fetched_at := some now,
             fetch_error := msg } ∧
    authorize_client_gate now (.fail msg) none client_id = true ∧
    (∀ f ex, get_or_fetch_client now f ex "" = none) := by
  have hA : ¬(((urlparse client_id).scheme ≠ "http" ∧
      (urlparse client_id).scheme ≠ "https") ∨
      (urlparse client_id).netloc = "") := by
    rcases hscheme with h | h <;> simp [h, hnet]
  have hB : ¬((urlparse client_id).fragment ≠ "") := by simp [hfrag]
  have key : get_or_fetch_client now (.fail msg) none client_id =
      some { client_id := client_id, name := "", logo_url := "",
             redirect_uris := [], last_fetched_at := some now,
             fetch_error := msg } := by
    unfold get_or_fetch_client
    rw [if_neg hid, if_neg hA, if_neg hB]
    rfl
  refine ⟨?_, key, by simp [authorize_client_gate, key], fun f ex => rfl⟩
  unfold get_or_fetch_client
  rw [if_neg hid, if_neg hA, if_neg hB]
  dsimp only [Option.getD]
  split
  · exact ⟨existing, rfl, rfl, Or.inl rfl⟩
  · split
    · exact ⟨_, rfl, rfl, Or.inl rfl⟩
    · split
      · exact ⟨_, rfl, rfl, Or.inr rfl⟩
      · exact ⟨existing, rfl, rfl, Or.inl rfl⟩

/-- C4 witness: the amended theorem evaluated at a concrete client with
cached redirect URIs and at a fresh client. -/
theorem client_fetch_failure_witness :
    (∃ c, get_or_fetch_client 5 (.fail "down")
        (some { client_id := "https://app.example/", name := "App",
                logo_url := "", redirect_uris := ["https://app.example/cb"],
                last_fetched_at := some 0, fetch_error := "" })
        "https://app.example/" = some c ∧
      c.redirect_uris = ["https://app.example/cb"] ∧
      (c.fetch_error = "" ∨ c.fetch_error = "down")) ∧
    authorize_client_gate 5 (.fail "down") none "https://app.example/" = true := by
  have h := client_fetch_failure_stale_or_fresh 5 "down"
    { client_id := "https://app.example/", name := "App", logo_url := "",
      redirect_uris := ["https://app.example/cb"], last_fetched_at := some 0,
      fetch_error := "" }
    "https://app.example/" (by decide) (by decide) (by decide) (by decide)
  exact ⟨h.1, h.2.2.1⟩

lemma is_public_host_false_of_bad (resolve : String → Option (List IPInfo))
    (h : String) (ips : List IPInfo) (ip : IPInfo)
    (hr : resolve h = some ips) (hip : ip ∈ ips)
    (hbad : ip_disallowed ip = true) :
    is_public_host resolve (some h) = false := by
  simp only [is_public_host]
  by_cases h0 : h = ""
  · simp [h0]
  rw [if_neg h0]
  cases hloc : is_localhost (some h)
  · rw [if_neg (by simp [hloc]), hr]
    have hne : ips.isEmpty = false := by
      cases ips
      · simp at hip
      · simp
    show (if ips.isEmpty = true then false
      else ips.all fun ip => ! ip_disallowed ip) = false
    rw [if_neg (by simp [hne])]
    exact List.all_eq_false.mpr ⟨ip, hip, by simp [hbad]⟩
  · simp [hloc]

lemma is_public_host_false_of_localhost
    (resolve : String → Option (List IPInfo)) (h : String)
    (hloc : is_localhost (some h) = true) :
    is_public_host resolve (some h) = false := by
  simp only [is_public_host]
  by_cases h0 : h = ""
  · simp [h0]
  rw [if_neg h0]
  simp [hloc]

/-- C2 counterexample: with debug mode on and `localhost` resolving only to
an address carrying none of the disallowed properties, the discovery guard
still rejects the fetch — the guard has no debug bypass for localhost. -/
theorem localhost_discovery_rejected_even_in_debug :
    fetch_hosts_allowed (fun _ => some [⟨false, false, false, false, false⟩])
      true (some "localhost") [] = false := by
  decide

/-- C2 (amended): before connecting and at every redirect hop, the fetch is
rejected whenever the target (client_id host or hop host) resolves to any
address that is private, loopback, link-local, reserved or multicast — and a
localhost target is rejected unconditionally, whatever the debug flag. -/
theorem discovery_host_guard
    (resolve : String → Option (List IPInfo)) (debug : Bool)
    (client_host : Option String) (redirect_hosts : List (Option String)) :
    (∀ h ips ip, client_host = some h → resolve h = some ips → ip ∈ ips →
      ip_disallowed ip = true →
      fetch_hosts_allowed resolve debug client_host redirect_hosts = false) ∧
    (∀ oh h ips ip, oh ∈ redirect_hosts → oh = some h →
      resolve h = some ips → ip ∈ ips → ip_disallowed ip = true →
      fetch_hosts_allowed resolve debug client_host redirect_hosts = false) ∧
    (∀ h, client_host = some h → is_localhost (some h) = true →
      fetch_hosts_allowed resolve debug client_host redirect_hosts = false) ∧
    (∀ oh h, oh ∈ redirect_hosts → oh = some h → is_localhost (some h) = true →
      fetch_hosts_allowed resolve debug client_host redirect_hosts = false) := by
  refine ⟨?_, ?_, ?_, ?_⟩
  · intro h ips ip hch hr hip hbad
    subst hch
    simp [fetch_hosts_allowed,
      is_public_host_false_of_bad resolve h ips ip hr hip hbad]
  · intro oh h ips ip hmem hoh hr hip hbad
    subst hoh
    have hfalse := is_public_host_false_of_bad resolve h ips ip hr hip hbad
    simp only [fetch_hosts_allowed]
    rw [List.all_eq_false.mpr ⟨some h, hmem, by simp [hfalse]⟩]
    simp
  · intro h hch hloc
    subst hch
    simp [fetch_hosts_allowed,
      is_public_host_false_of_localhost resolve h hloc]
  · intro oh h hmem hoh hloc
    subst hoh
    have hfalse := is_public_host_false_of_localhost resolve h hloc
    simp only [fetch_hosts_allowed]
    rw [List.all_eq_false.mpr ⟨some h, hmem, by simp [hfalse]⟩]
    simp

/-- C2 witness: a host resolving to a single private address is rejected,
both as the initial target and as a redirect hop. -/
theorem discovery_host_guard_witness :
    fetch_hosts_allowed (fun _ => some [⟨true, false, false, false, false⟩])
      false (some "internal.example") [] = false ∧
    fetch_hosts_allowed (fun h => if h = "internal.example"
        then some [⟨true, false, false, false, false⟩]
        else some [⟨false, false, false, false, false⟩])
      false (some "ok.example") [some "internal.example"] = false := by
  constructor
  · exact (discovery_host_guard (fun _ => some [⟨true, false, false, false,
      false⟩]) false (some "internal.example") []).1 "internal.example"
      [⟨true, false, false, false, false⟩] ⟨true, false, false, false, false⟩
      rfl rfl (by simp) (by decide)
  · exact (discovery_host_guard (fun h => if h = "internal.example"
        then some [⟨true, false, false, false, false⟩]
        else some [⟨false, false, false, false, false⟩])
      false (some "ok.example") [some "internal.example"]).2.1
      (some "internal.example") "internal.example"
      [⟨true, false, false, false, false⟩] ⟨true, false, false, false, false⟩
      (by simp) rfl (by decide) (by simp) (by decide)

lemma mem_updateFirst_of_find? {α : Type} (p : α → Bool) (f : α → α)
    (l : List α) (x : α) (hf : l.find? p = some x) :
    f x ∈ updateFirst p f l := by
  induction l with
  | nil => simp at hf
  | cons c rest ih =>
    by_cases hc : p c = true
    · rw [List.find?_cons_of_pos _ hc] at hf
      cases hf
      simp [updateFirst, hc]
    · rw [List.find?_cons_of_neg _ hc] at hf
      simp only [updateFirst, if_neg hc]
      exact List.mem_cons_of_mem _ (ih hf)

/-- C8: in the validated, authenticated GET authorize flow, when prompting is
not forced and a remembered consent matches (user, client_id, requested
scope string), the endpoint stamps that consent's last-used time and
proceeds straight to code issuance without rendering the prompt; with no
matching consent it renders the consent prompt. -/
theorem consent_auto_approve
    (now : Nat) (consents : List Consent) (user : Nat)
    (client_id redirect_uri me scope state ch chm prompt : String)
    (hprompt : prompt ≠ "consent")
    (hnorm : scope_join (normalize_scopes scope) = scope) :
    ((∃ c ∈ consents, consentPred user client_id scope c = true) →
      ∃ c0, consents.find? (consentPred user client_id scope) = some c0 ∧
        authorize_get_decision now consents user client_id redirect_uri me
            scope state ch chm prompt =
          (updateFirst (consentPred user client_id scope)
            (fun c => { c with last_used_at := some now }) consents,
           .issue user client_id redirect_uri me scope state ch chm) ∧
        { c0 with last_used_at := some now } ∈
          updateFirst (consentPred user client_id scope)
            (fun c => { c with last_used_at := some now }) consents) ∧
    (consents.find? (consentPred user client_id scope) = none →
      authorize_get_decision now consents user client_id redirect_uri me
        scope state ch chm prompt = (consents, .prompt)) := by
  constructor
  · rintro ⟨c, hc, hpred⟩
    have hsome : (consents.find? (consentPred user client_id scope)).isSome :=
      List.find?_isSome.mpr ⟨c, hc, hpred⟩
    rcases Option.isSome_iff_exists.mp hsome with ⟨c0, hc0⟩
    refine ⟨c0, hc0, ?_, mem_updateFirst_of_find? _ _ _ _ hc0⟩
    simp only [authorize_get_decision, hnorm]
    rw [if_pos hprompt, hc0]
  · intro hnone
    simp only [authorize_get_decision, hnorm]
    rw [if_pos hprompt, hnone]

/-- C8 witness: a store holding the matching consent, auto-approved with the
consent's last-used timestamp updated; and the prompt rendered without it. -/
theorem consent_auto_approve_witness :
    authorize_get_decision 9 [⟨1, "https://cid", "create", 0, none⟩] 1
        "https://cid" "https://ru" "https://me" "create" "st" "ch" "S256" "" =
      ([⟨1, "https://cid", "create", 0, some 9⟩],
       .issue 1 "https://cid" "https://ru" "https://me" "create" "st" "ch"
         "S256") ∧
    authorize_get_decision 9 [] 1
        "https://cid" "https://ru" "https://me" "create" "st" "ch" "S256" "" =
      ([], .prompt) := by
  constructor
  · have h := (consent_auto_approve 9 [⟨1, "https://cid", "create", 0, none⟩]
      1 "https://cid" "https://ru" "https://me" "create" "st" "ch" "S256" ""
      (by decide) (by decide)).1
      ⟨⟨1, "https://cid", "create", 0, none⟩, by simp, by decide⟩
    rcases h with ⟨c0, hc0, heq, hmem⟩
    rw [heq]
    decide
  · exact (consent_auto_approve 9 [] 1 "https://cid" "https://ru" "https://me"
      "create" "st" "ch" "S256" "" (by decide) (by decide)).2 rfl

end IndieAuth
